import Mathlib

/-!
Shallow embedding of the room coordination and event relay layer of a
multiplayer backend server (`server.js`).  JavaScript `Map` objects are
modelled as association lists, socket.io adapter rooms as association lists
from room name to member list, and each socket.io event handler as a function
from server state to a new server state plus a list of emissions.
-/

/-- Association-list model of a JavaScript `Map` lookup (`Map.get`). -/
def mapGet? {α : Type} : List (String × α) → String → Option α
  | [], _ => none
  | (k', v) :: rest, k => if k' = k then some v else mapGet? rest k

/-- JavaScript `Map.has`: a key is present iff `Map.get` succeeds. -/
def mapHas {α : Type} (m : List (String × α)) (k : String) : Bool :=
  (mapGet? m k).isSome

/-- JavaScript `Map.set`: replace the value at an existing key in place,
otherwise append a new entry (insertion order preserved). -/
def mapSet {α : Type} : List (String × α) → String → α → List (String × α)
  | [], k, v => [(k, v)]
  | (k', v') :: rest, k, v =>
    if k' = k then (k, v) :: rest else (k', v') :: mapSet rest k v

/-- JavaScript `Map.delete`. -/
def mapDelete {α : Type} : List (String × α) → String → List (String × α)
  | [], _ => []
  | (k', v') :: rest, k =>
    if k' = k then mapDelete rest k else (k', v') :: mapDelete rest k

/-- Update the value stored at a key (JavaScript field assignment on a stored
object), leaving the map unchanged when the key is absent. -/
def mapUpd {α : Type} : List (String × α) → String → (α → α) → List (String × α)
  | [], _, _ => []
  | (k', v') :: rest, k, f =>
    if k' = k then (k', f v') :: mapUpd rest k f else (k', v') :: mapUpd rest k f

theorem mapGet?_eq_none_of_has_false {α : Type} (m : List (String × α)) (k : String)
    (h : mapHas m k = false) : mapGet? m k = none := by
  unfold mapHas at h
  cases hg : mapGet? m k with
  | none => rfl
  | some v => rw [hg] at h; simp at h

theorem mapHas_eq_true_of_get {α : Type} (m : List (String × α)) (k : String) (v : α)
    (h : mapGet? m k = some v) : mapHas m k = true := by
  unfold mapHas; rw [h]; rfl

theorem get_of_mapHas_eq_true {α : Type} (m : List (String × α)) (k : String)
    (h : mapHas m k = true) : ∃ v, mapGet? m k = some v := by
  unfold mapHas at h
  cases hg : mapGet? m k with
  | none => rw [hg] at h; simp at h
  | some v => exact ⟨v, rfl⟩

theorem mapGet?_mapSet_self {α : Type} (m : List (String × α)) (k : String) (v : α) :
    mapGet? (mapSet m k v) k = some v := by
  induction m with
  | nil => simp [mapSet, mapGet?]
  | cons p rest ih =>
    obtain ⟨k', v'⟩ := p
    by_cases h : k' = k
    · simp [mapSet, mapGet?, h]
    · simp [mapSet, mapGet?, h, ih]

theorem mapGet?_mapSet_ne {α : Type} (m : List (String × α)) (k q : String) (v : α)
    (h : q ≠ k) : mapGet? (mapSet m k v) q = mapGet? m q := by
  have hkq : k ≠ q := Ne.symm h
  induction m with
  | nil => simp [mapSet, mapGet?, hkq]
  | cons p rest ih =>
    obtain ⟨k', v'⟩ := p
    by_cases hk : k' = k
    · subst hk
      simp [mapSet, mapGet?, hkq]
    · simp only [mapSet, if_neg hk, mapGet?]
      by_cases hq : k' = q
      · simp [hq]
      · simp [hq, ih]

theorem mapGet?_mapDelete_self {α : Type} (m : List (String × α)) (k : String) :
    mapGet? (mapDelete m k) k = none := by
  induction m with
  | nil => simp [mapDelete, mapGet?]
  | cons p rest ih =>
    obtain ⟨k', v'⟩ := p
    by_cases h : k' = k
    · simp only [mapDelete, if_pos h]
      exact ih
    · simp only [mapDelete, if_neg h, mapGet?]
      simp [h, ih]

theorem mapGet?_mapDelete_ne {α : Type} (m : List (String × α)) (k q : String)
    (h : q ≠ k) : mapGet? (mapDelete m k) q = mapGet? m q := by
  induction m with
  | nil => simp [mapDelete]
  | cons p rest ih =>
    obtain ⟨k', v'⟩ := p
    by_cases hk : k' = k
    · subst hk
      have hq : k' ≠ q := Ne.symm h
      simp [mapDelete, mapGet?, hq, ih]
    · simp only [mapDelete, if_neg hk, mapGet?]
      by_cases hq : k' = q
      · simp [hq]
      · simp [hq, ih]

theorem mapGet?_mapUpd_self {α : Type} (m : List (String × α)) (k : String) (f : α → α) :
    mapGet? (mapUpd m k f) k = (mapGet? m k).map f := by
  induction m with
  | nil => simp [mapUpd, mapGet?]
  | cons p rest ih =>
    obtain ⟨k', v'⟩ := p
    by_cases hk : k' = k
    · subst hk
      simp [mapUpd, mapGet?]
    · simp [mapUpd, mapGet?, hk, ih]

theorem mapGet?_mapUpd_ne {α : Type} (m : List (String × α)) (k q : String) (f : α → α)
    (h : q ≠ k) : mapGet? (mapUpd m k f) q = mapGet? m q := by
  induction m with
  | nil => simp [mapUpd]
  | cons p rest ih =>
    obtain ⟨k', v'⟩ := p
    by_cases hk : k' = k
    · subst hk
      have hq : k' ≠ q := Ne.symm h
      simp [mapUpd, mapGet?, hq, ih]
    · simp only [mapUpd, if_neg hk, mapGet?]
      by_cases hq : k' = q
      · simp [hq]
      · simp [hq, ih]

theorem mapGet?_append_some {α : Type} (m m2 : List (String × α)) (q : String) (v : α)
    (h : mapGet? m q = some v) : mapGet? (m ++ m2) q = some v := by
  induction m with
  | nil => simp [mapGet?] at h
  | cons p rest ih =>
    obtain ⟨k', v'⟩ := p
    by_cases hq : k' = q
    · simp_all [mapGet?]
    · simp_all [mapGet?]

theorem mapGet?_append_single {α : Type} (m : List (String × α)) (k q : String) (v u : α)
    (h : mapGet? (m ++ [(k, v)]) q = some u) :
    mapGet? m q = some u ∨ (q = k ∧ u = v) := by
  induction m with
  | nil =>
    simp only [List.nil_append, mapGet?] at h
    by_cases hq : k = q
    · subst hq
      simp at h
      exact Or.inr ⟨rfl, h.symm⟩
    · rw [if_neg hq] at h
      simp [mapGet?] at h
  | cons p rest ih =>
    obtain ⟨k', v'⟩ := p
    by_cases hq : k' = q
    · simp_all [mapGet?]
    · simp only [List.cons_append, mapGet?, if_neg hq] at h ⊢
      exact ih h

/-! ## Adapter rooms (socket.io delivery groups) -/

/-- Member list of a socket.io adapter room: `adapter.rooms.get(code)` with a
missing room read as the empty set (the source guards with `|| []`). -/
def roomMembers (m : List (String × List String)) (code : String) : List String :=
  (mapGet? m code).getD []

/-- Insert an id into a delivery-group member set (sets have no duplicates). -/
def addId (l : List String) (sid : String) : List String :=
  if sid ∈ l then l else l ++ [sid]

/-- `socket.join(code)`: add the socket to the adapter room named `code`,
creating the room when absent. -/
def adapterJoin (m : List (String × List String)) (code sid : String) :
    List (String × List String) :=
  mapSet m code (addId (roomMembers m code) sid)

/-- On disconnect the adapter removes the socket from every room it joined. -/
def leaveAll (m : List (String × List String)) (sid : String) :
    List (String × List String) :=
  m.map (fun p => (p.1, p.2.filter (fun x => decide (x ≠ sid))))

theorem roomMembers_adapterJoin_self (m : List (String × List String)) (code sid : String) :
    roomMembers (adapterJoin m code sid) code = addId (roomMembers m code) sid := by
  unfold roomMembers adapterJoin
  rw [mapGet?_mapSet_self]
  rfl

theorem roomMembers_adapterJoin_ne (m : List (String × List String)) (code sid c : String)
    (h : c ≠ code) : roomMembers (adapterJoin m code sid) c = roomMembers m c := by
  unfold roomMembers adapterJoin
  rw [mapGet?_mapSet_ne _ _ _ _ h]

theorem mem_addId_self (l : List String) (sid : String) : sid ∈ addId l sid := by
  unfold addId
  split
  · assumption
  · simp

theorem mem_addId_of_mem (l : List String) (sid x : String) (h : x ∈ l) :
    x ∈ addId l sid := by
  unfold addId
  split
  · exact h
  · simp [h]

theorem filter_addId_self (l : List String) (sid : String) :
    (addId l sid).filter (fun x => decide (x ≠ sid)) = l.filter (fun x => decide (x ≠ sid)) := by
  unfold addId
  split
  · rfl
  · simp

theorem roomMembers_leaveAll (m : List (String × List String)) (sid c : String) :
    roomMembers (leaveAll m sid) c = (roomMembers m c).filter (fun x => decide (x ≠ sid)) := by
  induction m with
  | nil => simp [leaveAll, roomMembers, mapGet?]
  | cons p rest ih =>
    obtain ⟨k', v'⟩ := p
    by_cases h : k' = c
    · simp [leaveAll, roomMembers, mapGet?, h]
    · simpa [leaveAll, roomMembers, mapGet?, h] using ih

/-! ## Rooms

`server.js` imports `GameRoom` and `generateRoomCode` from `./room.js`, a file
that is not part of this repository snapshot.  The definitions below are
modelled from the specification of those two collaborators (§4.1, §4.3):
`addPlayer` inserts the connection identity into the member set and is a no-op
when already present, `removePlayer` removes it, `numPlayers` is the member
count, and the wishlist is an ordered sequence with whole-value replace.  The
code generator is modelled as an abstract stream `gen : Nat → String` of
candidate codes (one per call), with its §4.1 contract — every produced code
has exactly the requested length — taken as a hypothesis where needed. -/

structure GameRoom where
  code : String
  players : List String
  wishlist : List String
deriving DecidableEq, Repr

/-- Modelled from the spec: `new GameRoom(code)` starts with an empty member
set and no wishlist (an absent wishlist is read as the empty sequence). -/
def GameRoom.new (code : String) : GameRoom :=
  { code := code, players := [], wishlist := [] }

/-- Modelled from the spec: insert the identity; no-op if already present. -/
def GameRoom.addPlayer (r : GameRoom) (sid : String) : GameRoom :=
  if sid ∈ r.players then r else { r with players := r.players ++ [sid] }

/-- Modelled from the spec: remove the identity from the member set. -/
def GameRoom.removePlayer (r : GameRoom) (sid : String) : GameRoom :=
  { r with players := r.players.filter (fun x => decide (x ≠ sid)) }

/-- Modelled from the spec: `memberCount()`, read as `room.numPlayers`. -/
def GameRoom.numPlayers (r : GameRoom) : Nat :=
  r.players.length

theorem GameRoom.mem_addPlayer_self (r : GameRoom) (sid : String) :
    sid ∈ (r.addPlayer sid).players := by
  unfold GameRoom.addPlayer
  split
  · assumption
  · simp

theorem GameRoom.mem_addPlayer_of_mem (r : GameRoom) (sid x : String)
    (h : x ∈ r.players) : x ∈ (r.addPlayer sid).players := by
  unfold GameRoom.addPlayer
  split
  · exact h
  · simp [h]

theorem GameRoom.addPlayer_players_ne_nil (r : GameRoom) (sid : String) :
    (r.addPlayer sid).players ≠ [] := by
  intro hnil
  have := GameRoom.mem_addPlayer_self r sid
  rw [hnil] at this
  simp at this

theorem GameRoom.addPlayer_wishlist (r : GameRoom) (sid : String) :
    (r.addPlayer sid).wishlist = r.wishlist := by
  unfold GameRoom.addPlayer
  split <;> rfl

theorem GameRoom.mem_removePlayer (r : GameRoom) (sid x : String)
    (hx : x ∈ r.players) (hne : x ≠ sid) : x ∈ (r.removePlayer sid).players := by
  unfold GameRoom.removePlayer
  simp [List.mem_filter, hx, hne]

theorem GameRoom.addPlayer_removePlayer (r : GameRoom) (sid : String)
    (h : sid ∉ r.players) :
    ((r.addPlayer sid).removePlayer sid).numPlayers = r.numPlayers := by
  unfold GameRoom.addPlayer GameRoom.removePlayer GameRoom.numPlayers
  rw [if_neg h]
  simp only []
  rw [List.filter_append]
  have h1 : r.players.filter (fun x => decide (x ≠ sid)) = r.players := by
    apply List.filter_eq_self.mpr
    intro a ha
    simp only [decide_eq_true_eq]
    intro hcon
    exact h (hcon ▸ ha)
  simp only [h1, List.filter]
  have h2 : decide (sid ≠ sid) = false := by simp
  rw [h2]
  simp

/-! ## Server state and events (`server.js`) -/

/-- `const ROOM_CODE_LENGTH = 6` (server.js line 11). -/
def ROOM_CODE_LENGTH : Nat := 6

/-- Per-connection data bag on the update namespace:
`socket.userData = { name, roomCode }` with `roomCode = ''` meaning no
current room affiliation (the falsy check `!socket.userData.roomCode`). -/
structure UserData where
  name : String
  roomCode : String
deriving DecidableEq, Repr

/-- Payload of an outbound event. -/
inductive Payload where
  | str (s : String)
  | items (l : List String)
  | msg (id message name : String)
deriving DecidableEq, Repr

/-- One outbound emission: the transport delivers `payload` under event name
`event` to each socket in `recipients`. -/
structure Emission where
  recipients : List String
  event : String
  payload : Payload
deriving DecidableEq, Repr

/-- Well-formed payload of `sendMessage`: `{ message, roomName }`. -/
structure MsgPayload where
  message : String
  roomName : String
deriving DecidableEq, Repr

/-- Whole-server state: the room registry `gameRooms`, the per-socket data and
adapter rooms of the update namespace, the per-socket display names and
adapter rooms of the chat namespace, and the position reached in the code
generator stream. -/
structure ServerState where
  gameRooms : List (String × GameRoom)
  updSockets : List (String × UserData)
  updRooms : List (String × List String)
  chatSockets : List (String × String)
  chatRooms : List (String × List String)
  genIdx : Nat
deriving DecidableEq, Repr

/-- State of the server process at startup: no rooms, no connections. -/
def initState : ServerState :=
  { gameRooms := [], updSockets := [], updRooms := [],
    chatSockets := [], chatRooms := [], genIdx := 0 }

/-- Inbound events of the two namespaces.  Connect and disconnect are
transport-level transitions; `updConnect` carries the randomly assigned
default display name as a parameter. -/
inductive Event where
  | chatConnect (sid : String)
  | chatSetName (sid name : String)
  | generateCode (sid room : String)
  | sendMessage (sid : String) (payload : Option MsgPayload)
  | joinVoiceRoom (sid room : String)
  | chatDisconnect (sid : String)
  | updConnect (sid defaultName : String)
  | setID (sid : String)
  | updSetName (sid name : String)
  | joinRoom (sid code : String)
  | createRoom (sid : String)
  | updateWishlist (sid : String) (items : List String)
  | updDisconnect (sid : String)
deriving DecidableEq, Repr

/-- Result of running one event handler to completion: either a new state
with the emissions it produced, or an uncaught JavaScript exception. -/
inductive StepResult where
  | ok (st : ServerState) (out : List Emission)
  | err (msg : String)
deriving DecidableEq, Repr

/-- The `'joinRoom'` handler (server.js lines 136-153).  A failed registry
lookup answers `invalidRoomCode` to the caller only and returns; on success
the handler stores the affiliation, calls `addPlayer`, joins the adapter
room, acknowledges with `generateCode`, and, when the room already has a
nonempty wishlist, narrowcasts it to the joiner. -/
def handleJoinRoom (st : ServerState) (sid code : String) :
    ServerState × List Emission :=
  match mapGet? st.gameRooms code with
  | none => (st, [⟨[sid], "invalidRoomCode", .str "Not a valid room code."⟩])
  | some room =>
    let st1 := { st with
      updSockets := mapUpd st.updSockets sid (fun ud => { ud with roomCode := code }) }
    let room1 := room.addPlayer sid
    let st2 := { st1 with gameRooms := mapSet st1.gameRooms code room1 }
    let st3 := { st2 with updRooms := adapterJoin st2.updRooms code sid }
    if 0 < room1.wishlist.length then
      (st3, [⟨[sid], "generateCode", .str code⟩,
             ⟨[sid], "wishlistUpdated", .items room1.wishlist⟩])
    else
      (st3, [⟨[sid], "generateCode", .str code⟩])

/-- The retry loop of the `'createRoom'` handler (server.js lines 157-160):
draw codes from the generator stream until one is not a registry key.  The
source loop is unbounded; `fuel` bounds the model, with `none` standing for
a run of the loop that has not found a fresh code within `fuel` draws. -/
def findFresh (gen : Nat → String) (m : List (String × GameRoom)) :
    Nat → Nat → Option (String × Nat)
  | _, 0 => none
  | idx, fuel + 1 =>
    let c := gen idx
    if mapHas m c then findFresh gen m (idx + 1) fuel else some (c, idx + 1)

/-- Core of the `'createRoom'` handler (server.js lines 155-169): generate a
fresh code, store the affiliation, insert a new room and add the caller to
it, join the adapter room.  Returns the new code with the new state. -/
def handleCreateRoom0 (gen : Nat → String) (fuel : Nat) (st : ServerState)
    (sid : String) : Option (String × ServerState) :=
  match findFresh gen st.gameRooms st.genIdx fuel with
  | none => none
  | some (newCode, idx1) =>
    let st1 := { st with
      genIdx := idx1,
      updSockets := mapUpd st.updSockets sid (fun ud => { ud with roomCode := newCode }) }
    let room1 := (GameRoom.new newCode).addPlayer sid
    let st2 := { st1 with gameRooms := mapSet st1.gameRooms newCode room1 }
    let st3 := { st2 with updRooms := adapterJoin st2.updRooms newCode sid }
    some (newCode, st3)

/-- The `'createRoom'` handler including its acknowledgment emission. -/
def handleCreateRoom (gen : Nat → String) (fuel : Nat) (st : ServerState)
    (sid : String) : StepResult :=
  match handleCreateRoom0 gen fuel st sid with
  | none => .err "createRoom: code generation loop did not terminate"
  | some (newCode, st') => .ok st' [⟨[sid], "generateCode", .str newCode⟩]

/-- The `'updateWishlist'` handler (server.js lines 171-188): with no stored
affiliation the event is logged and dropped; with an affiliation whose code
is a registry key the room's wishlist is replaced whole-value and the new
value is emitted to the adapter room (sender included); otherwise nothing
happens. -/
def handleUpdateWishlist (st : ServerState) (sid : String) (items : List String) :
    ServerState × List Emission :=
  let roomCode := match mapGet? st.updSockets sid with
    | some ud => ud.roomCode
    | none => ""
  if roomCode = "" then (st, [])
  else
    match mapGet? st.gameRooms roomCode with
    | none => (st, [])
    | some room =>
      ({ st with gameRooms := mapSet st.gameRooms roomCode { room with wishlist := items } },
       [⟨roomMembers st.updRooms roomCode, "wishlistUpdated", .items items⟩])

/-- The `'disconnecting'` handler (server.js lines 190-200).  When the socket
holds an affiliation the handler reads the room from the registry with no
presence check and calls `removePlayer` on it: a missing room is the
uncaught `TypeError` of `room.removePlayer` on `undefined`.  When the member
count reaches zero the room is deleted from the registry. -/
def handleDisconnecting (st : ServerState) (sid : String) : StepResult :=
  let roomCode := match mapGet? st.updSockets sid with
    | some ud => ud.roomCode
    | none => ""
  if roomCode = "" then .ok st []
  else
    match mapGet? st.gameRooms roomCode with
    | none => .err "TypeError: cannot read removePlayer of undefined"
    | some room =>
      let room1 := room.removePlayer sid
      let st1 := { st with gameRooms := mapSet st.gameRooms roomCode room1 }
      if room1.numPlayers = 0 then
        .ok { st1 with gameRooms := mapDelete st1.gameRooms roomCode } []
      else
        .ok st1 []

/-- The `'sendMessage'` handler (server.js lines 90-97).  The parameter list
destructures `{ message, roomName }`: a nullish payload throws a `TypeError`
before the handler body runs.  Otherwise the message is emitted to the named
adapter room excluding the sender. -/
def handleSendMessage (st : ServerState) (sid : String)
    (payload : Option MsgPayload) : StepResult :=
  match payload with
  | none => .err "TypeError: cannot destructure message of undefined"
  | some p =>
    .ok st [⟨(roomMembers st.chatRooms p.roomName).filter (fun x => decide (x ≠ sid)),
            "broadcastMessage",
            .msg sid p.message ((mapGet? st.chatSockets sid).getD "")⟩]

/-- The `'joinVoiceRoom'` handler (server.js lines 100-110): join the adapter
room, announce the joiner to every other member, then send the joiner the
list of every other member read back from the adapter. -/
def handleJoinVoiceRoom (st : ServerState) (sid room : String) :
    ServerState × List Emission :=
  let chatRooms1 := adapterJoin st.chatRooms room sid
  let peers := (roomMembers chatRooms1 room).filter (fun x => decide (x ≠ sid))
  ({ st with chatRooms := chatRooms1 },
   [⟨peers, "newVoicePeer", .str sid⟩,
    ⟨[sid], "existingVoicePeers", .items peers⟩])

/-- One step of the event relay: dispatch an inbound event to its handler.
Disconnect events run the handler and then the transport teardown, which
removes the socket's data bag and its adapter-room memberships. -/
def step (gen : Nat → String) (fuel : Nat) (st : ServerState) (ev : Event) :
    StepResult :=
  match ev with
  | .chatConnect sid =>
    .ok (if mapHas st.chatSockets sid then st
         else { st with chatSockets := st.chatSockets ++ [(sid, "")] }) []
  | .chatSetName sid name =>
    .ok { st with chatSockets := mapUpd st.chatSockets sid (fun _ => name) } []
  | .generateCode sid room =>
    .ok { st with chatRooms := adapterJoin st.chatRooms room sid } []
  | .sendMessage sid payload => handleSendMessage st sid payload
  | .joinVoiceRoom sid room =>
    let p := handleJoinVoiceRoom st sid room
    .ok p.1 p.2
  | .chatDisconnect sid =>
    .ok { st with chatSockets := mapDelete st.chatSockets sid,
                  chatRooms := leaveAll st.chatRooms sid } []
  | .updConnect sid defaultName =>
    .ok (if mapHas st.updSockets sid then st
         else { st with updSockets := st.updSockets ++ [(sid, ⟨defaultName, ""⟩)] }) []
  | .setID sid =>
    .ok st [⟨st.updSockets.map (fun p => p.1), "setID", .str sid⟩]
  | .updSetName sid name =>
    .ok { st with updSockets := mapUpd st.updSockets sid (fun ud => { ud with name := name }) } []
  | .joinRoom sid code =>
    let p := handleJoinRoom st sid code
    .ok p.1 p.2
  | .createRoom sid => handleCreateRoom gen fuel st sid
  | .updateWishlist sid items =>
    let p := handleUpdateWishlist st sid items
    .ok p.1 p.2
  | .updDisconnect sid =>
    match handleDisconnecting st sid with
    | .ok st1 out =>
      .ok { st1 with updSockets := mapDelete st1.updSockets sid,
                     updRooms := leaveAll st1.updRooms sid } out
    | r => r

/-- Current stored room affiliation of a socket on the update namespace. -/
def affiliation (st : ServerState) (sid : String) : Option String :=
  (mapGet? st.updSockets sid).map (fun ud => ud.roomCode)

/-- States reachable from process startup by completed event handlers. -/
inductive Reachable (gen : Nat → String) : ServerState → Prop where
  | init : Reachable gen initState
  | step (st : ServerState) (ev : Event) (fuel : Nat) (st' : ServerState)
      (out : List Emission) (h : Reachable gen st)
      (hs : step gen fuel st ev = .ok st' out) : Reachable gen st'

/-! ## Freshness of generated room codes -/

theorem mapHas_mapSet_self {α : Type} (m : List (String × α)) (k : String) (v : α) :
    mapHas (mapSet m k v) k = true :=
  mapHas_eq_true_of_get _ _ _ (mapGet?_mapSet_self m k v)

theorem mapHas_mapSet_of_has {α : Type} (m : List (String × α)) (k q : String) (v : α)
    (h : mapHas m q = true) : mapHas (mapSet m k v) q = true := by
  by_cases hq : q = k
  · subst hq
    exact mapHas_mapSet_self m q v
  · unfold mapHas at h ⊢
    rw [mapGet?_mapSet_ne _ _ _ _ hq]
    exact h

theorem findFresh_fresh (gen : Nat → String) (m : List (String × GameRoom)) :
    ∀ (fuel idx : Nat) (c : String) (idx1 : Nat),
      findFresh gen m idx fuel = some (c, idx1) →
      mapHas m c = false ∧ ∃ n, c = gen n := by
  intro fuel
  induction fuel with
  | zero => intro idx c idx1 h; simp [findFresh] at h
  | succ n ih =>
    intro idx c idx1 h
    simp only [findFresh] at h
    by_cases hg : mapHas m (gen idx) = true
    · rw [if_pos hg] at h
      exact ih _ _ _ h
    · have hg' : mapHas m (gen idx) = false := by
        cases hb : mapHas m (gen idx)
        · rfl
        · exact absurd hb hg
      rw [if_neg hg] at h
      obtain ⟨rfl, -⟩ : c = gen idx ∧ idx1 = idx + 1 := by
        have := Option.some.inj h
        exact ⟨(Prod.mk.injEq _ _ _ _ ▸ this).1.symm, (Prod.mk.injEq _ _ _ _ ▸ this).2.symm⟩
      exact ⟨hg', idx, rfl⟩

theorem handleCreateRoom0_spec (gen : Nat → String) (fuel : Nat) (st : ServerState)
    (sid c : String) (st' : ServerState)
    (h : handleCreateRoom0 gen fuel st sid = some (c, st')) :
    mapHas st.gameRooms c = false ∧ (∃ n, c = gen n) ∧
      (∀ k, mapHas st.gameRooms k = true → mapHas st'.gameRooms k = true) ∧
      mapHas st'.gameRooms c = true := by
  unfold handleCreateRoom0 at h
  cases hf : findFresh gen st.gameRooms st.genIdx fuel with
  | none => rw [hf] at h; cases h
  | some p =>
    obtain ⟨c1, idx1⟩ := p
    rw [hf] at h
    simp only [Option.some.injEq, Prod.mk.injEq] at h
    obtain ⟨rfl, rfl⟩ := h
    have hfr := findFresh_fresh gen st.gameRooms fuel st.genIdx c1 idx1 hf
    refine ⟨hfr.1, hfr.2, ?_, ?_⟩
    · intro k hk
      exact mapHas_mapSet_of_has _ _ _ _ hk
    · exact mapHas_mapSet_self _ _ _

/-- A back-to-back sequence of `createRoom` calls (one per listed socket),
collecting the codes returned to the callers; the run stops if the retry
loop fails to find a fresh code. -/
def createRoomsRun (gen : Nat → String) (fuel : Nat) :
    ServerState → List String → ServerState × List String
  | st, [] => (st, [])
  | st, sid :: rest =>
    match handleCreateRoom0 gen fuel st sid with
    | none => (st, [])
    | some (c, st1) =>
      let p := createRoomsRun gen fuel st1 rest
      (p.1, c :: p.2)

theorem createRoomsRun_fresh (gen : Nat → String) (fuel : Nat) :
    ∀ (sids : List String) (st : ServerState) (c : String),
      c ∈ (createRoomsRun gen fuel st sids).2 → mapHas st.gameRooms c = false := by
  intro sids
  induction sids with
  | nil => intro st c hc; simp [createRoomsRun] at hc
  | cons sid rest ih =>
    intro st c hc
    simp only [createRoomsRun] at hc
    cases h0 : handleCreateRoom0 gen fuel st sid with
    | none => rw [h0] at hc; simp at hc
    | some p =>
      obtain ⟨c1, st1⟩ := p
      rw [h0] at hc
      simp at hc
      rcases hc with rfl | hc
      · exact (handleCreateRoom0_spec gen fuel st sid c st1 h0).1
      · have h1 := ih st1 c hc
        by_cases h2 : mapHas st.gameRooms c = true
        · have h3 := (handleCreateRoom0_spec gen fuel st sid c1 st1 h0).2.2.1 c h2
          rw [h3] at h1
          cases h1
        · cases hb : mapHas st.gameRooms c
          · rfl
          · exact absurd hb h2

theorem createRoomsRun_nodup (gen : Nat → String) (fuel : Nat) :
    ∀ (sids : List String) (st : ServerState),
      (createRoomsRun gen fuel st sids).2.Nodup := by
  intro sids
  induction sids with
  | nil => intro st; simp [createRoomsRun]
  | cons sid rest ih =>
    intro st
    simp only [createRoomsRun]
    cases h0 : handleCreateRoom0 gen fuel st sid with
    | none => simp
    | some p =>
      obtain ⟨c1, st1⟩ := p
      refine List.nodup_cons.mpr ⟨?_, ih st1⟩
      intro hc
      have h1 := createRoomsRun_fresh gen fuel rest st1 c1 hc
      have h2 := (handleCreateRoom0_spec gen fuel st sid c1 st1 h0).2.2.2
      rw [h2] at h1
      cases h1

theorem createRoomsRun_length (gen : Nat → String) (fuel : Nat)
    (hgen : ∀ n, (gen n).length = ROOM_CODE_LENGTH) :
    ∀ (sids : List String) (st : ServerState) (c : String),
      c ∈ (createRoomsRun gen fuel st sids).2 → c.length = ROOM_CODE_LENGTH := by
  intro sids
  induction sids with
  | nil => intro st c hc; simp [createRoomsRun] at hc
  | cons sid rest ih =>
    intro st c hc
    simp only [createRoomsRun] at hc
    cases h0 : handleCreateRoom0 gen fuel st sid with
    | none => rw [h0] at hc; simp at hc
    | some p =>
      obtain ⟨c1, st1⟩ := p
      rw [h0] at hc
      simp at hc
      rcases hc with rfl | hc
      · obtain ⟨n, rfl⟩ := (handleCreateRoom0_spec gen fuel st sid c st1 h0).2.1
        exact hgen n
      · exact ih st1 c hc

/-! ## Registry and membership invariant -/

/-- Invariant of reachable server states: every registered room has a
nonempty member set, and every stored affiliation points at a registered
room whose member set, and whose update-namespace delivery group, contain
the affiliated socket. -/
def StateInv (st : ServerState) : Prop :=
  (∀ code room, mapGet? st.gameRooms code = some room → room.players ≠ []) ∧
  (∀ sid ud, mapGet? st.updSockets sid = some ud → ud.roomCode ≠ "" →
    ∃ room, mapGet? st.gameRooms ud.roomCode = some room ∧ sid ∈ room.players ∧
      sid ∈ roomMembers st.updRooms ud.roomCode)

theorem inv_initState : StateInv initState := by
  constructor
  · intro c r hc
    simp [initState, mapGet?] at hc
  · intro q ud hq hne
    simp [initState, mapGet?] at hq

theorem inv_handleJoinRoom (st : ServerState) (sid code : String)
    (st' : ServerState) (out : List Emission) (h : StateInv st)
    (hs : handleJoinRoom st sid code = (st', out)) : StateInv st' := by
  unfold handleJoinRoom at hs
  cases hg : mapGet? st.gameRooms code with
  | none =>
    rw [hg] at hs
    injection hs with h1 h2
    subst h1
    exact h
  | some room =>
    rw [hg] at hs
    dsimp only at hs
    have hst : st' = { st with
        updSockets := mapUpd st.updSockets sid (fun ud => { ud with roomCode := code }),
        gameRooms := mapSet st.gameRooms code (room.addPlayer sid),
        updRooms := adapterJoin st.updRooms code sid } := by
      split at hs <;> (injection hs with h1 h2; exact h1.symm)
    subst hst
    constructor
    · intro c r hc
      dsimp only at hc
      by_cases hcc : c = code
      · subst hcc
        rw [mapGet?_mapSet_self] at hc
        obtain rfl := Option.some.inj hc
        exact GameRoom.addPlayer_players_ne_nil room sid
      · rw [mapGet?_mapSet_ne _ _ _ _ hcc] at hc
        exact h.1 c r hc
    · intro q ud hq hne
      dsimp only at hq ⊢
      by_cases hqs : q = sid
      · subst hqs
        rw [mapGet?_mapUpd_self] at hq
        cases hg2 : mapGet? st.updSockets q with
        | none => rw [hg2] at hq; cases hq
        | some ud0 =>
          rw [hg2] at hq
          obtain rfl := Option.some.inj hq
          refine ⟨room.addPlayer q, ?_, ?_, ?_⟩
          · show mapGet? (mapSet st.gameRooms code (room.addPlayer q)) code = _
            rw [mapGet?_mapSet_self]
          · exact GameRoom.mem_addPlayer_self room q
          · show q ∈ roomMembers (adapterJoin st.updRooms code q) code
            rw [roomMembers_adapterJoin_self]
            exact mem_addId_self _ q
      · rw [mapGet?_mapUpd_ne _ _ _ _ hqs] at hq
        obtain ⟨r0, hr0, hmem0, hadapt0⟩ := h.2 q ud hq hne
        by_cases hcc : ud.roomCode = code
        · have hrr : r0 = room := by
            rw [hcc, hg] at hr0
            exact (Option.some.inj hr0).symm
          refine ⟨room.addPlayer sid, ?_, ?_, ?_⟩
          · rw [hcc, mapGet?_mapSet_self]
          · exact GameRoom.mem_addPlayer_of_mem room sid q (hrr ▸ hmem0)
          · rw [hcc, roomMembers_adapterJoin_self]
            rw [hcc] at hadapt0
            exact mem_addId_of_mem _ sid q hadapt0
        · refine ⟨r0, ?_, hmem0, ?_⟩
          · rw [mapGet?_mapSet_ne _ _ _ _ hcc]
            exact hr0
          · rw [roomMembers_adapterJoin_ne _ _ _ _ hcc]
            exact hadapt0

theorem inv_handleCreateRoom0 (gen : Nat → String) (fuel : Nat) (st : ServerState)
    (sid c : String) (st' : ServerState) (h : StateInv st)
    (hs : handleCreateRoom0 gen fuel st sid = some (c, st')) : StateInv st' := by
  unfold handleCreateRoom0 at hs
  cases hf : findFresh gen st.gameRooms st.genIdx fuel with
  | none => rw [hf] at hs; cases hs
  | some p =>
    obtain ⟨c1, idx1⟩ := p
    rw [hf] at hs
    simp only [Option.some.injEq, Prod.mk.injEq] at hs
    obtain ⟨rfl, rfl⟩ := hs
    have hfresh : mapHas st.gameRooms c1 = false :=
      (findFresh_fresh gen st.gameRooms fuel st.genIdx c1 idx1 hf).1
    have hfresh' : mapGet? st.gameRooms c1 = none :=
      mapGet?_eq_none_of_has_false _ _ hfresh
    constructor
    · intro c2 r hc
      dsimp only at hc
      by_cases hcc : c2 = c1
      · subst hcc
        rw [mapGet?_mapSet_self] at hc
        obtain rfl := Option.some.inj hc
        exact GameRoom.addPlayer_players_ne_nil _ sid
      · rw [mapGet?_mapSet_ne _ _ _ _ hcc] at hc
        exact h.1 c2 r hc
    · intro q ud hq hne
      dsimp only at hq ⊢
      by_cases hqs : q = sid
      · subst hqs
        rw [mapGet?_mapUpd_self] at hq
        cases hg2 : mapGet? st.updSockets q with
        | none => rw [hg2] at hq; cases hq
        | some ud0 =>
          rw [hg2] at hq
          obtain rfl := Option.some.inj hq
          refine ⟨(GameRoom.new c1).addPlayer q, ?_, ?_, ?_⟩
          · show mapGet? (mapSet st.gameRooms c1 ((GameRoom.new c1).addPlayer q)) c1 = _
            rw [mapGet?_mapSet_self]
          · exact GameRoom.mem_addPlayer_self _ q
          · show q ∈ roomMembers (adapterJoin st.updRooms c1 q) c1
            rw [roomMembers_adapterJoin_self]
            exact mem_addId_self _ q
      · rw [mapGet?_mapUpd_ne _ _ _ _ hqs] at hq
        obtain ⟨r0, hr0, hmem0, hadapt0⟩ := h.2 q ud hq hne
        have hcc : ud.roomCode ≠ c1 := by
          intro hcon
          rw [hcon, hfresh'] at hr0
          cases hr0
        refine ⟨r0, ?_, hmem0, ?_⟩
        · rw [mapGet?_mapSet_ne _ _ _ _ hcc]
          exact hr0
        · rw [roomMembers_adapterJoin_ne _ _ _ _ hcc]
          exact hadapt0

theorem inv_handleUpdateWishlist (st : ServerState) (sid : String)
    (items : List String) (st' : ServerState) (out : List Emission)
    (h : StateInv st) (hs : handleUpdateWishlist st sid items = (st', out)) :
    StateInv st' := by
  unfold handleUpdateWishlist at hs
  cases hu : mapGet? st.updSockets sid with
  | none =>
    rw [hu] at hs
    dsimp only at hs
    rw [if_pos rfl] at hs
    injection hs with h1 h2
    subst h1
    exact h
  | some ud =>
    rw [hu] at hs
    dsimp only at hs
    by_cases hrc : ud.roomCode = ""
    · rw [if_pos hrc] at hs
      injection hs with h1 h2
      subst h1
      exact h
    · rw [if_neg hrc] at hs
      cases hg : mapGet? st.gameRooms ud.roomCode with
      | none =>
        rw [hg] at hs
        injection hs with h1 h2
        subst h1
        exact h
      | some room =>
        rw [hg] at hs
        injection hs with h1 h2
        subst h1
        constructor
        · intro c r hc
          dsimp only at hc
          by_cases hcc : c = ud.roomCode
          · subst hcc
            rw [mapGet?_mapSet_self] at hc
            obtain rfl := Option.some.inj hc
            intro hnil
            exact h.1 _ room hg (by simpa using hnil)
          · rw [mapGet?_mapSet_ne _ _ _ _ hcc] at hc
            exact h.1 c r hc
        · intro q ud2 hq hne
          dsimp only at hq ⊢
          obtain ⟨r0, hr0, hmem0, hadapt0⟩ := h.2 q ud2 hq hne
          by_cases hcc : ud2.roomCode = ud.roomCode
          · have hrr : r0 = room := by
              rw [hcc, hg] at hr0
              exact (Option.some.inj hr0).symm
            refine ⟨{ room with wishlist := items }, ?_, ?_, hadapt0⟩
            · rw [hcc]
              exact mapGet?_mapSet_self _ _ _
            · show q ∈ room.players
              exact hrr ▸ hmem0
          · refine ⟨r0, ?_, hmem0, hadapt0⟩
            rw [mapGet?_mapSet_ne _ _ _ _ hcc]
            exact hr0

theorem inv_step (gen : Nat → String) (fuel : Nat) (st : ServerState) (ev : Event)
    (st' : ServerState) (out : List Emission) (h : StateInv st)
    (hs : step gen fuel st ev = .ok st' out) : StateInv st' := by
  cases ev with
  | chatConnect sid =>
    simp only [step] at hs
    injection hs with h1 h2
    subst h1
    split
    · exact h
    · exact h
  | chatSetName sid name =>
    simp only [step] at hs
    injection hs with h1 h2
    subst h1
    exact h
  | generateCode sid room =>
    simp only [step] at hs
    injection hs with h1 h2
    subst h1
    exact h
  | sendMessage sid payload =>
    simp only [step, handleSendMessage] at hs
    cases payload with
    | none => exact StepResult.noConfusion hs
    | some p =>
      injection hs with h1 h2
      subst h1
      exact h
  | joinVoiceRoom sid room =>
    simp only [step, handleJoinVoiceRoom] at hs
    injection hs with h1 h2
    subst h1
    exact h
  | chatDisconnect sid =>
    simp only [step] at hs
    injection hs with h1 h2
    subst h1
    exact h
  | updConnect sid defaultName =>
    simp only [step] at hs
    injection hs with h1 h2
    subst h1
    split
    · exact h
    · constructor
      · exact h.1
      · intro q ud hq hne
        rcases mapGet?_append_single _ _ _ _ _ hq with hq' | ⟨rfl, rfl⟩
        · exact h.2 q ud hq' hne
        · simp at hne
  | setID sid =>
    simp only [step] at hs
    injection hs with h1 h2
    subst h1
    exact h
  | updSetName sid name =>
    simp only [step] at hs
    injection hs with h1 h2
    subst h1
    constructor
    · exact h.1
    · intro q ud hq hne
      dsimp only at hq ⊢
      by_cases hqs : q = sid
      · subst hqs
        rw [mapGet?_mapUpd_self] at hq
        cases hg2 : mapGet? st.updSockets q with
        | none => rw [hg2] at hq; cases hq
        | some ud0 =>
          rw [hg2] at hq
          obtain rfl := Option.some.inj hq
          exact h.2 q ud0 hg2 hne
      · rw [mapGet?_mapUpd_ne _ _ _ _ hqs] at hq
        exact h.2 q ud hq hne
  | joinRoom sid code =>
    simp only [step] at hs
    injection hs with h1 h2
    have hp : handleJoinRoom st sid code = (st', out) := by
      rw [← h1, ← h2]
    exact inv_handleJoinRoom st sid code st' out h hp
  | createRoom sid =>
    simp only [step, handleCreateRoom] at hs
    cases h0 : handleCreateRoom0 gen fuel st sid with
    | none => rw [h0] at hs; exact StepResult.noConfusion hs
    | some p =>
      obtain ⟨c, st1⟩ := p
      rw [h0] at hs
      injection hs with h1 h2
      subst h1
      exact inv_handleCreateRoom0 gen fuel st sid c st1 h h0
  | updateWishlist sid items =>
    simp only [step] at hs
    injection hs with h1 h2
    have hp : handleUpdateWishlist st sid items = (st', out) := by
      rw [← h1, ← h2]
    exact inv_handleUpdateWishlist st sid items st' out h hp
  | updDisconnect sid =>
    simp only [step] at hs
    cases hd : handleDisconnecting st sid with
    | err m => rw [hd] at hs; exact StepResult.noConfusion hs
    | ok st1 out1 =>
      rw [hd] at hs
      injection hs with h1 h2
      subst h1
      unfold handleDisconnecting at hd
      cases hu : mapGet? st.updSockets sid with
      | none =>
        rw [hu] at hd
        dsimp only at hd
        rw [if_pos rfl] at hd
        injection hd with hA hB
        subst hA
        constructor
        · exact h.1
        · intro q ud hq hne
          dsimp only at hq ⊢
          have hqs : q ≠ sid := by
            intro hcon
            subst hcon
            rw [mapGet?_mapDelete_self] at hq
            cases hq
          rw [mapGet?_mapDelete_ne _ _ _ hqs] at hq
          obtain ⟨r0, hr0, hm, ha⟩ := h.2 q ud hq hne
          refine ⟨r0, hr0, hm, ?_⟩
          rw [roomMembers_leaveAll]
          exact List.mem_filter.mpr ⟨ha, by simp [hqs]⟩
      | some ud =>
        rw [hu] at hd
        dsimp only at hd
        by_cases hrc : ud.roomCode = ""
        · rw [if_pos hrc] at hd
          injection hd with hA hB
          subst hA
          constructor
          · exact h.1
          · intro q ud2 hq hne
            dsimp only at hq ⊢
            have hqs : q ≠ sid := by
              intro hcon
              subst hcon
              rw [mapGet?_mapDelete_self] at hq
              cases hq
            rw [mapGet?_mapDelete_ne _ _ _ hqs] at hq
            obtain ⟨r0, hr0, hm, ha⟩ := h.2 q ud2 hq hne
            refine ⟨r0, hr0, hm, ?_⟩
            rw [roomMembers_leaveAll]
            exact List.mem_filter.mpr ⟨ha, by simp [hqs]⟩
        · rw [if_neg hrc] at hd
          cases hg : mapGet? st.gameRooms ud.roomCode with
          | none => rw [hg] at hd; exact StepResult.noConfusion hd
          | some room =>
            rw [hg] at hd
            dsimp only at hd
            by_cases hz : (room.removePlayer sid).numPlayers = 0
            · rw [if_pos hz] at hd
              injection hd with hA hB
              subst hA
              constructor
              · intro c r hc
                dsimp only at hc
                by_cases hcc : c = ud.roomCode
                · subst hcc
                  rw [mapGet?_mapDelete_self] at hc
                  cases hc
                · rw [mapGet?_mapDelete_ne _ _ _ hcc,
                      mapGet?_mapSet_ne _ _ _ _ hcc] at hc
                  exact h.1 c r hc
              · intro q ud2 hq hne
                dsimp only at hq ⊢
                have hqs : q ≠ sid := by
                  intro hcon
                  subst hcon
                  rw [mapGet?_mapDelete_self] at hq
                  cases hq
                rw [mapGet?_mapDelete_ne _ _ _ hqs] at hq
                obtain ⟨r0, hr0, hm, ha⟩ := h.2 q ud2 hq hne
                have hcc : ud2.roomCode ≠ ud.roomCode := by
                  intro hcon
                  have hrr : r0 = room := by
                    rw [hcon, hg] at hr0
                    exact (Option.some.inj hr0).symm
                  have hq1 : q ∈ (room.removePlayer sid).players :=
                    GameRoom.mem_removePlayer room sid q (hrr ▸ hm) hqs
                  have hnil : (room.removePlayer sid).players = [] := by
                    unfold GameRoom.numPlayers at hz
                    exact List.length_eq_zero.mp hz
                  rw [hnil] at hq1
                  simp at hq1
                refine ⟨r0, ?_, hm, ?_⟩
                · rw [mapGet?_mapDelete_ne _ _ _ hcc,
                      mapGet?_mapSet_ne _ _ _ _ hcc]
                  exact hr0
                · rw [roomMembers_leaveAll]
                  exact List.mem_filter.mpr ⟨ha, by simp [hqs]⟩
            · rw [if_neg hz] at hd
              injection hd with hA hB
              subst hA
              constructor
              · intro c r hc
                dsimp only at hc
                by_cases hcc : c = ud.roomCode
                · subst hcc
                  rw [mapGet?_mapSet_self] at hc
                  obtain rfl := Option.some.inj hc
                  intro hnil
                  exact hz (by unfold GameRoom.numPlayers; rw [hnil]; rfl)
                · rw [mapGet?_mapSet_ne _ _ _ _ hcc] at hc
                  exact h.1 c r hc
              · intro q ud2 hq hne
                dsimp only at hq ⊢
                have hqs : q ≠ sid := by
                  intro hcon
                  subst hcon
                  rw [mapGet?_mapDelete_self] at hq
                  cases hq
                rw [mapGet?_mapDelete_ne _ _ _ hqs] at hq
                obtain ⟨r0, hr0, hm, ha⟩ := h.2 q ud2 hq hne
                by_cases hcc : ud2.roomCode = ud.roomCode
                · have hrr : r0 = room := by
                    rw [hcc, hg] at hr0
                    exact (Option.some.inj hr0).symm
                  refine ⟨room.removePlayer sid, ?_, ?_, ?_⟩
                  · rw [hcc]
                    exact mapGet?_mapSet_self _ _ _
                  · exact GameRoom.mem_removePlayer room sid q (hrr ▸ hm) hqs
                  · rw [roomMembers_leaveAll]
                    exact List.mem_filter.mpr ⟨ha, by simp [hqs]⟩
                · refine ⟨r0, ?_, hm, ?_⟩
                  · rw [mapGet?_mapSet_ne _ _ _ _ hcc]
                    exact hr0
                  · rw [roomMembers_leaveAll]
                    exact List.mem_filter.mpr ⟨ha, by simp [hqs]⟩

theorem reachable_inv (gen : Nat → String) (st : ServerState)
    (h : Reachable gen st) : StateInv st := by
  induction h with
  | init => exact inv_initState
  | step st0 ev fuel st1 out hr hs ih => exact inv_step gen fuel st0 ev st1 out ih hs

/-! ## Concrete demonstration states -/

/-- Demonstration code generator stream: "AAAAAA" first, then "BBBBBB". -/
def demoGen (n : Nat) : String :=
  if n = 0 then "AAAAAA" else "BBBBBB"

/-- State after `updConnect "A"`. -/
def demoSt1 : ServerState :=
  { gameRooms := [], updSockets := [("A", ⟨"PlayerA", ""⟩)], updRooms := [],
    chatSockets := [], chatRooms := [], genIdx := 0 }

/-- State after connection A has created room "AAAAAA". -/
def demoSt2 : ServerState :=
  { gameRooms := [("AAAAAA", ⟨"AAAAAA", ["A"], []⟩)],
    updSockets := [("A", ⟨"PlayerA", "AAAAAA"⟩)],
    updRooms := [("AAAAAA", ["A"])],
    chatSockets := [], chatRooms := [], genIdx := 1 }

/-- State after connection B has also connected. -/
def demoSt3 : ServerState :=
  { gameRooms := [("AAAAAA", ⟨"AAAAAA", ["A"], []⟩)],
    updSockets := [("A", ⟨"PlayerA", "AAAAAA"⟩), ("B", ⟨"PlayerB", ""⟩)],
    updRooms := [("AAAAAA", ["A"])],
    chatSockets := [], chatRooms := [], genIdx := 1 }

/-- State after connection B has created room "BBBBBB". -/
def demoSt4 : ServerState :=
  { gameRooms := [("AAAAAA", ⟨"AAAAAA", ["A"], []⟩), ("BBBBBB", ⟨"BBBBBB", ["B"], []⟩)],
    updSockets := [("A", ⟨"PlayerA", "AAAAAA"⟩), ("B", ⟨"PlayerB", "BBBBBB"⟩)],
    updRooms := [("AAAAAA", ["A"]), ("BBBBBB", ["B"])],
    chatSockets := [], chatRooms := [], genIdx := 2 }

/-- State after connection A, already affiliated to "AAAAAA", has then joined
room "BBBBBB". -/
def demoSt5 : ServerState :=
  { gameRooms := [("AAAAAA", ⟨"AAAAAA", ["A"], []⟩), ("BBBBBB", ⟨"BBBBBB", ["B", "A"], []⟩)],
    updSockets := [("A", ⟨"PlayerA", "BBBBBB"⟩), ("B", ⟨"PlayerB", "BBBBBB"⟩)],
    updRooms := [("AAAAAA", ["A"]), ("BBBBBB", ["B", "A"])],
    chatSockets := [], chatRooms := [], genIdx := 2 }

/-- State after a single chat connection A. -/
def demoChatA : ServerState :=
  { gameRooms := [], updSockets := [], updRooms := [],
    chatSockets := [("A", "")], chatRooms := [], genIdx := 0 }

/-- Chat state: A, B, C connected, delivery group "ROOM01" holding A and B. -/
def demoChat5 : ServerState :=
  { gameRooms := [], updSockets := [], updRooms := [],
    chatSockets := [("A", ""), ("B", ""), ("C", "")],
    chatRooms := [("ROOM01", ["A", "B"])], genIdx := 0 }

/-- A state whose stored affiliation names a code absent from the registry. -/
def danglingSt : ServerState :=
  { gameRooms := [], updSockets := [("A", ⟨"PlayerA", "ZZZZZZ"⟩)], updRooms := [],
    chatSockets := [], chatRooms := [], genIdx := 0 }

theorem demoSt1_reachable : Reachable demoGen demoSt1 :=
  Reachable.step _ (.updConnect "A" "PlayerA") 4 _ [] Reachable.init (by decide)

theorem demoSt2_reachable : Reachable demoGen demoSt2 :=
  Reachable.step _ (.createRoom "A") 4 _ [⟨["A"], "generateCode", .str "AAAAAA"⟩]
    demoSt1_reachable (by decide)

theorem demoSt3_reachable : Reachable demoGen demoSt3 :=
  Reachable.step _ (.updConnect "B" "PlayerB") 4 _ [] demoSt2_reachable (by decide)

theorem demoSt4_reachable : Reachable demoGen demoSt4 :=
  Reachable.step _ (.createRoom "B") 4 _ [⟨["B"], "generateCode", .str "BBBBBB"⟩]
    demoSt3_reachable (by decide)

theorem demoChatA_reachable : Reachable demoGen demoChatA :=
  Reachable.step _ (.chatConnect "A") 4 _ [] Reachable.init (by decide)

theorem demoChat5_reachable : Reachable demoGen demoChat5 := by
  have h1 : Reachable demoGen demoChatA := demoChatA_reachable
  have h2 : Reachable demoGen
      { gameRooms := [], updSockets := [], updRooms := [],
        chatSockets := [("A", ""), ("B", "")], chatRooms := [], genIdx := 0 } :=
    Reachable.step _ (.chatConnect "B") 4 _ [] h1 (by decide)
  have h3 : Reachable demoGen
      { gameRooms := [], updSockets := [], updRooms := [],
        chatSockets := [("A", ""), ("B", ""), ("C", "")], chatRooms := [], genIdx := 0 } :=
    Reachable.step _ (.chatConnect "C") 4 _ [] h2 (by decide)
  have h4 : Reachable demoGen
      { gameRooms := [], updSockets := [], updRooms := [],
        chatSockets := [("A", ""), ("B", ""), ("C", "")],
        chatRooms := [("ROOM01", ["A"])], genIdx := 0 } :=
    Reachable.step _ (.generateCode "A" "ROOM01") 4 _ [] h3 (by decide)
  exact Reachable.step _ (.generateCode "B" "ROOM01") 4 _ [] h4 (by decide)

/-! ## Claim theorems -/

/-- Claim C1: for every sequence of createRoom operations executed against the
registry, the codes returned are pairwise distinct and each code has exactly
the configured length (6 characters): the generator is retried until it yields
a code not present among the registry's keys, and the new empty room is
inserted under that code before the code is returned. -/
theorem claimC1_createRoom_codes (gen : Nat → String) (fuel : Nat)
    (st : ServerState) (sids : List String)
    (hgen : ∀ n, (gen n).length = ROOM_CODE_LENGTH) :
    (createRoomsRun gen fuel st sids).2.Nodup ∧
      ∀ c ∈ (createRoomsRun gen fuel st sids).2, c.length = ROOM_CODE_LENGTH :=
  ⟨createRoomsRun_nodup gen fuel sids st,
   fun c hc => createRoomsRun_length gen fuel hgen sids st c hc⟩

theorem claimC1_witness :
    (createRoomsRun demoGen 4 initState ["A", "B"]).2.Nodup ∧
      ∀ c ∈ (createRoomsRun demoGen 4 initState ["A", "B"]).2,
        c.length = ROOM_CODE_LENGTH :=
  claimC1_createRoom_codes demoGen 4 initState ["A", "B"]
    (by intro n; unfold demoGen; split <;> decide)

/-- Claim C2: for every joinRoom event whose code is absent from the registry,
the handler emits invalidRoomCode to the originating connection only, the
registry mapping is unchanged, and the caller's stored room affiliation is
unchanged; this holds for every prior state of the registry and session. -/
theorem claimC2_joinRoom_invalid (gen : Nat → String) (fuel : Nat)
    (st : ServerState) (sid code : String)
    (habs : mapHas st.gameRooms code = false) :
    step gen fuel st (.joinRoom sid code) =
      .ok st [⟨[sid], "invalidRoomCode", .str "Not a valid room code."⟩] := by
  have hg : mapGet? st.gameRooms code = none := mapGet?_eq_none_of_has_false _ _ habs
  simp only [step, handleJoinRoom, hg]

theorem claimC2_witness :
    step demoGen 4 demoSt2 (.joinRoom "A" "ZZZZZZ") =
      .ok demoSt2 [⟨["A"], "invalidRoomCode", .str "Not a valid room code."⟩] :=
  claimC2_joinRoom_invalid demoGen 4 demoSt2 "A" "ZZZZZZ" (by decide)

/-- Claim C3: for every joinRoom event whose code is present in the registry,
the session's affiliation becomes the given code, addPlayer is invoked on
that room with the caller, the caller receives a generateCode acknowledgment
carrying that code, and whenever a (nonempty) wishlist already exists for
that room the caller — and only the caller — immediately receives a
wishlistUpdated event carrying that wishlist. -/
theorem claimC3_joinRoom_success (gen : Nat → String) (fuel : Nat)
    (st : ServerState) (sid code : String) (room : GameRoom) (ud : UserData)
    (hroom : mapGet? st.gameRooms code = some room)
    (hud : mapGet? st.updSockets sid = some ud) :
    ∃ st', step gen fuel st (.joinRoom sid code) =
        .ok st' ([⟨[sid], "generateCode", .str code⟩] ++
          (if 0 < room.wishlist.length then
            [⟨[sid], "wishlistUpdated", .items room.wishlist⟩] else [])) ∧
      mapGet? st'.updSockets sid = some { ud with roomCode := code } ∧
      mapGet? st'.gameRooms code = some (room.addPlayer sid) := by
  refine ⟨{ st with
      updSockets := mapUpd st.updSockets sid (fun u => { u with roomCode := code }),
      gameRooms := mapSet st.gameRooms code (room.addPlayer sid),
      updRooms := adapterJoin st.updRooms code sid }, ?_, ?_, ?_⟩
  · simp only [step, handleJoinRoom, hroom]
    rw [GameRoom.addPlayer_wishlist]
    by_cases hw : 0 < room.wishlist.length
    · rw [if_pos hw, if_pos hw]
      rfl
    · rw [if_neg hw, if_neg hw]
      rfl
  · dsimp only
    rw [mapGet?_mapUpd_self, hud]
    rfl
  · dsimp only
    rw [mapGet?_mapSet_self]

theorem claimC3_witness :
    ∃ st', step demoGen 4 demoSt4 (.joinRoom "A" "BBBBBB") =
        .ok st' ([⟨["A"], "generateCode", .str "BBBBBB"⟩] ++
          (if 0 < ([] : List String).length then
            [⟨["A"], "wishlistUpdated", .items ([] : List String)⟩] else [])) ∧
      mapGet? st'.updSockets "A" = some ⟨"PlayerA", "BBBBBB"⟩ ∧
      mapGet? st'.gameRooms "BBBBBB" =
        some ((⟨"BBBBBB", ["B"], []⟩ : GameRoom).addPlayer "A") :=
  claimC3_joinRoom_success demoGen 4 demoSt4 "A" "BBBBBB" ⟨"BBBBBB", ["B"], []⟩
    ⟨"PlayerA", "AAAAAA"⟩ (by decide) (by decide)

/-- Claim C10: for every updateWishlist event sent by a session whose stored
room affiliation is non-empty but refers to a code absent from the registry,
the handler does nothing: no room state changes, no wishlistUpdated event is
emitted to anyone, and no error is surfaced to the caller. -/
theorem claimC10_dangling_affiliation (gen : Nat → String) (fuel : Nat)
    (st : ServerState) (sid : String) (items : List String) (ud : UserData)
    (hud : mapGet? st.updSockets sid = some ud)
    (hne : ud.roomCode ≠ "")
    (habs : mapHas st.gameRooms ud.roomCode = false) :
    step gen fuel st (.updateWishlist sid items) = .ok st [] := by
  have hg : mapGet? st.gameRooms ud.roomCode = none :=
    mapGet?_eq_none_of_has_false _ _ habs
  simp only [step, handleUpdateWishlist, hud, if_neg hne, hg]

theorem claimC10_witness :
    step demoGen 4 danglingSt (.updateWishlist "A" ["x"]) = .ok danglingSt [] :=
  claimC10_dangling_affiliation demoGen 4 danglingSt "A" ["x"]
    ⟨"PlayerA", "ZZZZZZ"⟩ (by decide) (by decide) (by decide)

/-- Claim C4: for every updateWishlist event: if the sender's session is
unaffiliated the event is dropped with no state change and nothing emitted
to anyone; if the session is affiliated to `code` (and so, in any reachable
state, `code` is a registry key), the room's wishlist is replaced
whole-value with the given items, the new value is emitted to every current
member of that room's delivery group including the sender, and a subsequent
read of that room's wishlist returns exactly the last written value. -/
theorem claimC4_updateWishlist (gen : Nat → String) (fuel : Nat)
    (st : ServerState) (sid : String) (items : List String) (ud : UserData)
    (hreach : Reachable gen st)
    (hud : mapGet? st.updSockets sid = some ud) :
    (ud.roomCode = "" → step gen fuel st (.updateWishlist sid items) = .ok st []) ∧
    (ud.roomCode ≠ "" →
      ∃ room st',
        mapGet? st.gameRooms ud.roomCode = some room ∧
        step gen fuel st (.updateWishlist sid items) =
          .ok st' [⟨roomMembers st.updRooms ud.roomCode, "wishlistUpdated",
                    .items items⟩] ∧
        mapGet? st'.gameRooms ud.roomCode = some { room with wishlist := items } ∧
        sid ∈ roomMembers st.updRooms ud.roomCode) := by
  constructor
  · intro hrc
    simp only [step, handleUpdateWishlist, hud, if_pos hrc]
  · intro hrc
    obtain ⟨room, hroom, hmem, hadapt⟩ := (reachable_inv gen st hreach).2 sid ud hud hrc
    refine ⟨room,
      { st with gameRooms := mapSet st.gameRooms ud.roomCode { room with wishlist := items } },
      hroom, ?_, ?_, hadapt⟩
    · simp only [step, handleUpdateWishlist, hud, if_neg hrc, hroom]
    · dsimp only
      rw [mapGet?_mapSet_self]

theorem claimC4_witness :
    ∃ room st',
      mapGet? demoSt2.gameRooms "AAAAAA" = some room ∧
      step demoGen 4 demoSt2 (.updateWishlist "A" ["x", "y"]) =
        .ok st' [⟨roomMembers demoSt2.updRooms "AAAAAA", "wishlistUpdated",
                  .items ["x", "y"]⟩] ∧
      mapGet? st'.gameRooms "AAAAAA" = some { room with wishlist := ["x", "y"] } ∧
      "A" ∈ roomMembers demoSt2.updRooms "AAAAAA" :=
  (claimC4_updateWishlist demoGen 4 demoSt2 "A" ["x", "y"] ⟨"PlayerA", "AAAAAA"⟩
    demoSt2_reachable (by decide)).2 (by decide)

/-- Claim C6: for every joinVoiceRoom event, exactly two emissions fire in
this order: first, every member of the named room other than the joiner
receives a newVoicePeer event carrying the joiner's identity; second, the
joiner alone receives an existingVoicePeers event whose content is exactly
the identities of every other member of that room at that instant (after the
join, every member of the delivery group other than the joiner is exactly
every pre-join member other than the joiner).  In particular, joining an
otherwise empty room produces an empty recipient set for newVoicePeer and an
empty existingVoicePeers list. -/
theorem claimC6_joinVoiceRoom (gen : Nat → String) (fuel : Nat)
    (st : ServerState) (sid code : String) :
    ∃ st', step gen fuel st (.joinVoiceRoom sid code) =
        .ok st' [⟨(roomMembers st.chatRooms code).filter (fun x => decide (x ≠ sid)),
                  "newVoicePeer", .str sid⟩,
                 ⟨[sid], "existingVoicePeers",
                  .items ((roomMembers st.chatRooms code).filter (fun x => decide (x ≠ sid)))⟩] ∧
      roomMembers st'.chatRooms code = addId (roomMembers st.chatRooms code) sid := by
  refine ⟨{ st with chatRooms := adapterJoin st.chatRooms code sid }, ?_, ?_⟩
  · simp only [step, handleJoinVoiceRoom]
    rw [roomMembers_adapterJoin_self, filter_addId_self]
  · dsimp only
    exact roomMembers_adapterJoin_self st.chatRooms code sid

/-- Claim C7: in every reachable state — i.e. after every completed handler —
a room whose member set is empty is not present in the registry; addPlayer
followed by removePlayer for the same (previously absent) connection returns
the member count to its prior value; and on the pre-disconnect step of a
socket holding a room affiliation, removePlayer is invoked on that room and,
when the resulting member count is zero, the room's code is removed from the
registry (otherwise the shrunk room stays registered). -/
theorem claimC7_empty_room_invariant (gen : Nat → String) (st : ServerState)
    (hreach : Reachable gen st) :
    (∀ code room, mapGet? st.gameRooms code = some room → room.players ≠ []) ∧
    (∀ (r : GameRoom) (sid : String), sid ∉ r.players →
      ((r.addPlayer sid).removePlayer sid).numPlayers = r.numPlayers) ∧
    (∀ sid ud, mapGet? st.updSockets sid = some ud → ud.roomCode ≠ "" →
      ∃ room, mapGet? st.gameRooms ud.roomCode = some room ∧
        ∀ fuel, ∃ st', step gen fuel st (.updDisconnect sid) = .ok st' [] ∧
          ((room.removePlayer sid).numPlayers = 0 →
            mapHas st'.gameRooms ud.roomCode = false) ∧
          ((room.removePlayer sid).numPlayers ≠ 0 →
            mapGet? st'.gameRooms ud.roomCode = some (room.removePlayer sid))) := by
  have hinv := reachable_inv gen st hreach
  refine ⟨hinv.1, fun r sid h => GameRoom.addPlayer_removePlayer r sid h, ?_⟩
  intro sid ud hud hne
  obtain ⟨room, hroom, hm, ha⟩ := hinv.2 sid ud hud hne
  refine ⟨room, hroom, ?_⟩
  intro fuel
  by_cases hz : (room.removePlayer sid).numPlayers = 0
  · refine ⟨{ st with
        gameRooms := mapDelete (mapSet st.gameRooms ud.roomCode (room.removePlayer sid))
          ud.roomCode,
        updSockets := mapDelete st.updSockets sid,
        updRooms := leaveAll st.updRooms sid }, ?_, ?_, ?_⟩
    · simp only [step, handleDisconnecting, hud, if_neg hne, hroom, if_pos hz]
    · intro _
      dsimp only
      unfold mapHas
      rw [mapGet?_mapDelete_self]
      rfl
    · intro hcon
      exact absurd hz hcon
  · refine ⟨{ st with
        gameRooms := mapSet st.gameRooms ud.roomCode (room.removePlayer sid),
        updSockets := mapDelete st.updSockets sid,
        updRooms := leaveAll st.updRooms sid }, ?_, ?_, ?_⟩
    · simp only [step, handleDisconnecting, hud, if_neg hne, hroom, if_neg hz]
    · intro hcon
      exact absurd hcon hz
    · intro _
      dsimp only
      rw [mapGet?_mapSet_self]

theorem claimC7_witness :
    ∃ room, mapGet? demoSt2.gameRooms "AAAAAA" = some room ∧
      ∀ fuel, ∃ st', step demoGen fuel demoSt2 (.updDisconnect "A") = .ok st' [] ∧
        ((room.removePlayer "A").numPlayers = 0 →
          mapHas st'.gameRooms "AAAAAA" = false) ∧
        ((room.removePlayer "A").numPlayers ≠ 0 →
          mapGet? st'.gameRooms "AAAAAA" = some (room.removePlayer "A")) :=
  (claimC7_empty_room_invariant demoGen demoSt2 demoSt2_reachable).2.2 "A"
    ⟨"PlayerA", "AAAAAA"⟩ (by decide) (by decide)

/-! ## Affiliation-change analysis -/

theorem handleUpdateWishlist_updSockets (st : ServerState) (sid : String)
    (items : List String) :
    (handleUpdateWishlist st sid items).1.updSockets = st.updSockets := by
  unfold handleUpdateWishlist
  cases mapGet? st.updSockets sid with
  | none =>
    dsimp only
    rw [if_pos rfl]
  | some ud =>
    dsimp only
    by_cases hrc : ud.roomCode = ""
    · rw [if_pos hrc]
    · rw [if_neg hrc]
      cases mapGet? st.gameRooms ud.roomCode with
      | none => rfl
      | some room => rfl

theorem handleDisconnecting_ok_updSockets (st : ServerState) (sid : String)
    (st1 : ServerState) (out1 : List Emission)
    (h : handleDisconnecting st sid = .ok st1 out1) :
    st1.updSockets = st.updSockets := by
  unfold handleDisconnecting at h
  cases hu : mapGet? st.updSockets sid with
  | none =>
    rw [hu] at h
    dsimp only at h
    rw [if_pos rfl] at h
    injection h with hA hB
    rw [← hA]
  | some ud =>
    rw [hu] at h
    dsimp only at h
    by_cases hrc : ud.roomCode = ""
    · rw [if_pos hrc] at h
      injection h with hA hB
      rw [← hA]
    · rw [if_neg hrc] at h
      cases hg : mapGet? st.gameRooms ud.roomCode with
      | none => rw [hg] at h; exact StepResult.noConfusion h
      | some room =>
        rw [hg] at h
        dsimp only at h
        by_cases hz : (room.removePlayer sid).numPlayers = 0
        · rw [if_pos hz] at h
          injection h with hA hB
          rw [← hA]
        · rw [if_neg hz] at h
          injection h with hA hB
          rw [← hA]

theorem handleCreateRoom0_updSockets (gen : Nat → String) (fuel : Nat)
    (st : ServerState) (sid c : String) (st1 : ServerState)
    (h : handleCreateRoom0 gen fuel st sid = some (c, st1)) :
    st1.updSockets = mapUpd st.updSockets sid (fun ud => { ud with roomCode := c }) := by
  unfold handleCreateRoom0 at h
  cases hf : findFresh gen st.gameRooms st.genIdx fuel with
  | none => rw [hf] at h; cases h
  | some p =>
    obtain ⟨c1, idx1⟩ := p
    rw [hf] at h
    simp only [Option.some.injEq, Prod.mk.injEq] at h
    obtain ⟨rfl, rfl⟩ := h
    rfl

/-- Claim C8 (amended): whenever a completed event changes a socket's stored
room affiliation from one code to a different one, that event was a
successful joinRoom for the new code (which must be a registry key) or a
createRoom by that socket (whose new code was fresh); the handlers do not
guard on the prior affiliation, so this can happen from an already
affiliated session, not only from an unaffiliated one. -/
theorem claimC8_amended (gen : Nat → String) (fuel : Nat) (st : ServerState)
    (ev : Event) (st' : ServerState) (out : List Emission) (sid c c' : String)
    (hs : step gen fuel st ev = .ok st' out)
    (hb : affiliation st sid = some c) (ha : affiliation st' sid = some c')
    (hne : c ≠ c') :
    (ev = .joinRoom sid c' ∧ mapHas st.gameRooms c' = true) ∨
    (ev = .createRoom sid ∧ mapHas st.gameRooms c' = false) := by
  obtain ⟨udb, hudb, hcb⟩ :
      ∃ udb, mapGet? st.updSockets sid = some udb ∧ udb.roomCode = c := by
    unfold affiliation at hb
    cases hu : mapGet? st.updSockets sid with
    | none => rw [hu] at hb; cases hb
    | some u =>
      rw [hu] at hb
      exact ⟨u, rfl, Option.some.inj hb⟩
  have hcontra : ∀ st2 : ServerState, st2.updSockets = st.updSockets →
      affiliation st2 sid = some c' → False := by
    intro st2 hupd ha2
    unfold affiliation at ha2
    rw [hupd, hudb] at ha2
    simp only [Option.map_some'] at ha2
    exact hne (hcb ▸ Option.some.inj ha2)
  cases ev with
  | chatConnect sid2 =>
    simp only [step] at hs
    injection hs with h1 h2
    subst h1
    exact (hcontra _ (by split <;> rfl) ha).elim
  | chatSetName sid2 name =>
    simp only [step] at hs
    injection hs with h1 h2
    subst h1
    exact (hcontra _ rfl ha).elim
  | generateCode sid2 room2 =>
    simp only [step] at hs
    injection hs with h1 h2
    subst h1
    exact (hcontra _ rfl ha).elim
  | sendMessage sid2 payload =>
    simp only [step, handleSendMessage] at hs
    cases payload with
    | none => exact StepResult.noConfusion hs
    | some p =>
      injection hs with h1 h2
      subst h1
      exact (hcontra _ rfl ha).elim
  | joinVoiceRoom sid2 room2 =>
    simp only [step, handleJoinVoiceRoom] at hs
    injection hs with h1 h2
    subst h1
    exact (hcontra _ rfl ha).elim
  | chatDisconnect sid2 =>
    simp only [step] at hs
    injection hs with h1 h2
    subst h1
    exact (hcontra _ rfl ha).elim
  | updConnect sid2 dn =>
    simp only [step] at hs
    injection hs with h1 h2
    subst h1
    by_cases hpres : mapHas st.updSockets sid2 = true
    · rw [if_pos hpres] at ha
      exact (hcontra st rfl ha).elim
    · rw [if_neg hpres] at ha
      unfold affiliation at ha
      dsimp only at ha
      rw [mapGet?_append_some _ _ _ _ hudb] at ha
      simp only [Option.map_some'] at ha
      exact absurd (hcb ▸ Option.some.inj ha) hne
  | setID sid2 =>
    simp only [step] at hs
    injection hs with h1 h2
    subst h1
    exact (hcontra st rfl ha).elim
  | updSetName sid2 name =>
    simp only [step] at hs
    injection hs with h1 h2
    subst h1
    unfold affiliation at ha
    dsimp only at ha
    by_cases hqs : sid = sid2
    · subst hqs
      rw [mapGet?_mapUpd_self, hudb] at ha
      simp only [Option.map_some'] at ha
      have h3 : udb.roomCode = c' := Option.some.inj ha
      exact absurd (hcb ▸ h3) hne
    · rw [mapGet?_mapUpd_ne _ _ _ _ hqs, hudb] at ha
      simp only [Option.map_some'] at ha
      exact absurd (hcb ▸ Option.some.inj ha) hne
  | joinRoom sid2 code =>
    simp only [step] at hs
    injection hs with h1 h2
    subst h1
    unfold handleJoinRoom at ha
    cases hg : mapGet? st.gameRooms code with
    | none =>
      rw [hg] at ha
      dsimp only at ha
      exact (hcontra st rfl ha).elim
    | some room =>
      rw [hg] at ha
      dsimp only at ha
      split at ha <;>
      · dsimp only at ha
        unfold affiliation at ha
        dsimp only at ha
        by_cases hqs : sid = sid2
        · subst hqs
          rw [mapGet?_mapUpd_self, hudb] at ha
          simp only [Option.map_some'] at ha
          have h3 : code = c' := Option.some.inj ha
          subst h3
          exact Or.inl ⟨rfl, mapHas_eq_true_of_get _ _ _ hg⟩
        · rw [mapGet?_mapUpd_ne _ _ _ _ hqs, hudb] at ha
          simp only [Option.map_some'] at ha
          exact absurd (hcb ▸ Option.some.inj ha) hne
  | createRoom sid2 =>
    simp only [step, handleCreateRoom] at hs
    cases h0 : handleCreateRoom0 gen fuel st sid2 with
    | none => rw [h0] at hs; exact StepResult.noConfusion hs
    | some p =>
      obtain ⟨cn, st1⟩ := p
      rw [h0] at hs
      injection hs with h1 h2
      subst h1
      have hspec := handleCreateRoom0_spec gen fuel st sid2 cn st1 h0
      unfold affiliation at ha
      rw [handleCreateRoom0_updSockets gen fuel st sid2 cn st1 h0] at ha
      by_cases hqs : sid = sid2
      · subst hqs
        rw [mapGet?_mapUpd_self, hudb] at ha
        simp only [Option.map_some'] at ha
        have h3 : cn = c' := Option.some.inj ha
        subst h3
        exact Or.inr ⟨rfl, hspec.1⟩
      · rw [mapGet?_mapUpd_ne _ _ _ _ hqs, hudb] at ha
        simp only [Option.map_some'] at ha
        exact absurd (hcb ▸ Option.some.inj ha) hne
  | updateWishlist sid2 items =>
    simp only [step] at hs
    injection hs with h1 h2
    subst h1
    unfold affiliation at ha
    rw [handleUpdateWishlist_updSockets st sid2 items, hudb] at ha
    simp only [Option.map_some'] at ha
    exact absurd (hcb ▸ Option.some.inj ha) hne
  | updDisconnect sid2 =>
    simp only [step] at hs
    cases hd : handleDisconnecting st sid2 with
    | err m => rw [hd] at hs; exact StepResult.noConfusion hs
    | ok st1 out1 =>
      rw [hd] at hs
      injection hs with h1 h2
      subst h1
      unfold affiliation at ha
      dsimp only at ha
      by_cases hqs : sid = sid2
      · subst hqs
        rw [mapGet?_mapDelete_self] at ha
        simp at ha
      · rw [mapGet?_mapDelete_ne _ _ _ hqs,
            handleDisconnecting_ok_updSockets st sid2 st1 out1 hd, hudb] at ha
        simp only [Option.map_some'] at ha
        exact absurd (hcb ▸ Option.some.inj ha) hne

/-- Claim C8 counterexample: the joinRoom handler performs no Unaffiliated
guard, so a session already affiliated to "AAAAAA" moves to "BBBBBB" on a
joinRoom event — a transition the claimed state machine forbids for any
event other than disconnect. -/
theorem claimC8_counterexample :
    Reachable demoGen demoSt4 ∧
    affiliation demoSt4 "A" = some "AAAAAA" ∧
    step demoGen 4 demoSt4 (.joinRoom "A" "BBBBBB") =
      .ok demoSt5 [⟨["A"], "generateCode", .str "BBBBBB"⟩] ∧
    affiliation demoSt5 "A" = some "BBBBBB" :=
  ⟨demoSt4_reachable, by decide, by decide, by decide⟩

theorem claimC8_witness :
    (Event.joinRoom "A" "BBBBBB" = Event.joinRoom "A" "BBBBBB" ∧
      mapHas demoSt4.gameRooms "BBBBBB" = true) ∨
    (Event.joinRoom "A" "BBBBBB" = Event.createRoom "A" ∧
      mapHas demoSt4.gameRooms "BBBBBB" = false) :=
  claimC8_amended demoGen 4 demoSt4 (.joinRoom "A" "BBBBBB") demoSt5
    [⟨["A"], "generateCode", .str "BBBBBB"⟩] "A" "AAAAAA" "BBBBBB"
    (by decide) (by decide) (by decide) (by decide)

/-- Claim C5 counterexample: sendMessage does not require the sender to be a
member of any chat room: in the reachable state demoChat5 the sender "C" is
not a member of "ROOM01", yet its sendMessage naming "ROOM01" is delivered
to the members A and B of that room. -/
theorem claimC5_counterexample :
    Reachable demoGen demoChat5 ∧
    "C" ∉ roomMembers demoChat5.chatRooms "ROOM01" ∧
    step demoGen 4 demoChat5 (.sendMessage "C" (some ⟨"hi", "ROOM01"⟩)) =
      .ok demoChat5 [⟨["A", "B"], "broadcastMessage", .msg "C" "hi" ""⟩] :=
  ⟨demoChat5_reachable, by decide, by decide⟩

/-- Claim C5 (amended): for every sendMessage event with a well-formed
payload, the message (with the sender's identity and display name) is
delivered to exactly the members of the payload's roomName except the
sender — with no check that the sender belongs to that room — so the sender
receives nothing from its own send, every recipient is a member of the named
room, and the state is unchanged. -/
theorem claimC5_amended (gen : Nat → String) (fuel : Nat) (st : ServerState)
    (sid : String) (p : MsgPayload) :
    step gen fuel st (.sendMessage sid (some p)) =
      .ok st [⟨(roomMembers st.chatRooms p.roomName).filter (fun x => decide (x ≠ sid)),
              "broadcastMessage",
              .msg sid p.message ((mapGet? st.chatSockets sid).getD "")⟩] ∧
    sid ∉ (roomMembers st.chatRooms p.roomName).filter (fun x => decide (x ≠ sid)) ∧
    ∀ x ∈ (roomMembers st.chatRooms p.roomName).filter (fun x => decide (x ≠ sid)),
      x ∈ roomMembers st.chatRooms p.roomName := by
  refine ⟨rfl, ?_, ?_⟩
  · intro hmem
    have h2 := (List.mem_filter.mp hmem).2
    simp at h2
  · intro x hx
    exact (List.mem_filter.mp hx).1

/-- Claim C9 (refuted, code bug): the sendMessage handler destructures
`{ message, roomName }` from a client-controlled payload, so a nullish
payload throws a TypeError before the handler body runs, and nothing in
server.js catches it; the handler is not total on a reachable state. -/
theorem claimC9_sendMessage_crash :
    Reachable demoGen demoChatA ∧
    step demoGen 4 demoChatA (.sendMessage "A" none) =
      .err "TypeError: cannot destructure message of undefined" :=
  ⟨demoChatA_reachable, by decide⟩
